import Mathlib

/-!
Verification of the Avatar_Talk capture/translation extension.

The development shallowly embeds the audio-chunk pipeline of the Chrome
extension: the WAV chunk encoder and the sample ring buffer of
`offscreen.js`, the capture worker's periodic flush / stop behaviour, the
TTS playback handler, and the coordinator logic of `background.js`
(start/stop guards, chunk dispatch, ended handling).

Floating-point samples are modelled as rationals; byte buffers as lists of
naturals (each < 256); the JavaScript `DataView.setInt16` conversion
(`ToInt16`: truncation toward zero followed by wrapping modulo 2^16) is
modelled exactly.
-/

namespace AvatarTalk

/-! ### ChunkEncoder: `encodeWAV` from offscreen.js -/

/-- `Math.max(-1, Math.min(1, input[i]))` — clamp a sample to `[-1, 1]`. -/
def clamp (s : ℚ) : ℚ := max (-1) (min 1 s)

/-- The scaled value passed to `setInt16`:
`v < 0 ? v * 0x8000 : v * 0x7FFF` applied to the clamped sample. -/
def sampleScaled (s : ℚ) : ℚ :=
  let v := clamp s
  if v < 0 then v * 32768 else v * 32767

/-- ECMAScript `ToInt16`, as performed by `DataView.setInt16`: truncate the
number toward zero, reduce modulo 2^16, and reinterpret as a signed 16-bit
value. -/
def jsToInt16 (x : ℚ) : ℤ :=
  let t : ℤ := if 0 ≤ x then ⌊x⌋ else ⌈x⌉
  let m := t % 65536
  if 32768 ≤ m then m - 65536 else m

/-- The 16-bit value the encoder stores for one float sample. -/
def sampleToInt16 (s : ℚ) : ℤ := jsToInt16 (sampleScaled s)

/-- Little-endian bytes of a signed 16-bit value (two's complement). -/
def int16Bytes (i : ℤ) : List ℕ :=
  let u := (i % 65536).toNat
  [u % 256, u / 256]

/-- `DataView.setUint16 (littleEndian)` — two bytes, wrapping modulo 2^16. -/
def u16le (v : ℕ) : List ℕ := [v % 256, v / 256 % 256]

/-- `DataView.setUint32 (littleEndian)` — four bytes, wrapping modulo 2^32. -/
def u32le (v : ℕ) : List ℕ :=
  [v % 256, v / 256 % 256, v / 65536 % 256, v / 16777216 % 256]

/-- ASCII bytes of `"RIFF"`. -/
def riffTag : List ℕ := [82, 73, 70, 70]
/-- ASCII bytes of `"WAVE"`. -/
def waveTag : List ℕ := [87, 65, 86, 69]
/-- ASCII bytes of `"fmt "`. -/
def fmtTag : List ℕ := [102, 109, 116, 32]
/-- ASCII bytes of `"data"`. -/
def dataTag : List ℕ := [100, 97, 116, 97]

/-- The 2-byte little-endian PCM encoding of one float sample. -/
def pcm16Bytes (s : ℚ) : List ℕ := int16Bytes (sampleToInt16 s)

/-- `encodeWAV(samples, sr)` from offscreen.js: a 44-byte RIFF/WAVE header
(mono, 16-bit linear PCM) followed by the little-endian 16-bit samples. -/
def encodeWAV (samples : List ℚ) (sr : ℕ) : List ℕ :=
  let dataLen := samples.length * 2
  riffTag ++ u32le (36 + dataLen) ++ waveTag ++
  fmtTag ++ u32le 16 ++ u16le 1 ++ u16le 1 ++
  u32le sr ++ u32le (sr * 2) ++ u16le 2 ++ u16le 16 ++
  dataTag ++ u32le dataLen ++
  (samples.map pcm16Bytes).flatten

/-- The per-sample integer as the spec's words describe it:
`round(clamp(s,-1,1) * (s<0 ? 32768 : 32767))`.  Written from the spec
sentence, to be compared against `sampleToInt16` (from the source). -/
def specSampleInt (s : ℚ) : ℤ :=
  round (clamp s * (if s < 0 then 32768 else 32767))

/-! ### RingBuffer: the `ring` object from offscreen.js -/

/-- The `ring` object: a queue of sample blocks plus a running length. -/
structure Ring where
  chunks : List (List ℚ)
  length : ℕ
deriving Repr, DecidableEq

/-- The initial (and cleared) ring. -/
def Ring.empty : Ring := ⟨[], 0⟩

/-- `push(f32)`: append a block, increase the stored length. -/
def Ring.push (r : Ring) (f32 : List ℚ) : Ring :=
  ⟨r.chunks ++ [f32], r.length + f32.length⟩

/-- The `while (off < n && this.chunks.length)` loop of `take`:
consume `need` samples from the front of the block queue, splitting the
first block when the boundary falls inside it (`take < first.length`
branch), shifting it out whole otherwise.  Returns the samples removed and
the remaining queue. -/
def takeLoop : List (List ℚ) → ℕ → List ℚ × List (List ℚ)
  | [], _ => ([], [])
  | first :: rest, need =>
    if need = 0 then ([], first :: rest)
    else if first.length ≤ need then
      (first ++ (takeLoop rest (need - first.length)).1,
       (takeLoop rest (need - first.length)).2)
    else
      (first.take need, first.drop need :: rest)

/-- `take(n)`: first `n = Math.min(n, this.length)`, then the drain loop;
the result is the `Float32Array(n)` out-array (zero-filled past what the
loop wrote, as a fresh JS typed array is) together with the updated ring
(`this.length -= n`). -/
def Ring.take (r : Ring) (n : ℕ) : List ℚ × Ring :=
  ((takeLoop r.chunks (min n r.length)).1 ++
     List.replicate (min n r.length - (takeLoop r.chunks (min n r.length)).1.length) 0,
   ⟨(takeLoop r.chunks (min n r.length)).2, r.length - min n r.length⟩)

/-- `clear()`. -/
def Ring.clear (_ : Ring) : Ring := Ring.empty

/-- All buffered samples in FIFO order. -/
def Ring.flat (r : Ring) : List ℚ := r.chunks.flatten

/-- The ring's stored `length` field agrees with the actual sample count —
maintained by `push`/`take`/`clear` in the source. -/
def Ring.wf (r : Ring) : Prop := r.length = r.flat.length

/-! Basic ring lemmas. -/

theorem Ring.empty_wf : Ring.empty.wf := rfl

theorem Ring.push_flat (r : Ring) (b : List ℚ) :
    (r.push b).flat = r.flat ++ b := by
  simp [Ring.push, Ring.flat]

theorem Ring.push_wf (r : Ring) (b : List ℚ) (h : r.wf) : (r.push b).wf := by
  simp only [Ring.wf, Ring.flat, Ring.push, List.flatten_append,
    List.flatten_cons, List.flatten_nil, List.append_nil,
    List.length_append] at h ⊢
  omega

theorem takeLoop_spec (chunks : List (List ℚ)) (need : ℕ)
    (h : need ≤ chunks.flatten.length) :
    (takeLoop chunks need).1 = chunks.flatten.take need ∧
    (takeLoop chunks need).2.flatten = chunks.flatten.drop need := by
  induction chunks generalizing need with
  | nil =>
    simp only [List.flatten_nil, List.length_nil, Nat.le_zero] at h
    simp [takeLoop, h]
  | cons first rest ih =>
    simp only [List.flatten_cons, List.length_append] at h
    by_cases h0 : need = 0
    · simp [takeLoop, h0]
    · by_cases hle : first.length ≤ need
      · have h' : need - first.length ≤ rest.flatten.length := by omega
        have hr := ih (need - first.length) h'
        simp only [takeLoop, if_neg h0, if_pos hle, List.flatten_cons]
        refine ⟨?_, ?_⟩
        · rw [hr.1, List.take_append_eq_append_take,
            List.take_of_length_le hle]
        · rw [hr.2, List.drop_append_eq_append_drop,
            List.drop_eq_nil_of_le hle, List.nil_append]
      · push_neg at hle
        simp only [takeLoop, if_neg h0, if_neg (not_le.mpr hle),
          List.flatten_cons]
        refine ⟨?_, ?_⟩
        · rw [List.take_append_of_le_length (le_of_lt hle)]
        · rw [List.drop_append_of_le_length (le_of_lt hle)]

theorem Ring.take_spec (r : Ring) (n : ℕ) (h : r.wf) :
    (r.take n).1 = r.flat.take n ∧
    (r.take n).2.flat = r.flat.drop n ∧
    (r.take n).2.wf := by
  have h' : r.length = r.chunks.flatten.length := h
  have hm : min n r.length ≤ r.chunks.flatten.length := by omega
  have hs := takeLoop_spec r.chunks (min n r.length) hm
  have hlen : (takeLoop r.chunks (min n r.length)).1.length
      = min n r.length := by
    rw [hs.1, List.length_take]
    omega
  have hmin : r.chunks.flatten.take (min n r.length)
      = r.chunks.flatten.take n :=
    List.take_eq_take.mpr (by omega)
  have hdropmin : r.chunks.flatten.drop (min n r.length)
      = r.chunks.flatten.drop n := by
    rcases le_or_lt n r.length with hc | hc
    · rw [min_eq_left hc]
    · rw [min_eq_right (le_of_lt hc),
        List.drop_of_length_le (by omega), List.drop_of_length_le (by omega)]
  refine ⟨?_, ?_, ?_⟩
  · show (takeLoop r.chunks (min n r.length)).1 ++
        List.replicate (min n r.length -
          (takeLoop r.chunks (min n r.length)).1.length) 0
        = r.chunks.flatten.take n
    rw [hlen, Nat.sub_self, List.replicate_zero, List.append_nil, hs.1, hmin]
  · show (takeLoop r.chunks (min n r.length)).2.flatten
        = r.chunks.flatten.drop n
    rw [hs.2, hdropmin]
  · show r.length - min n r.length =
      (takeLoop r.chunks (min n r.length)).2.flatten.length
    rw [hs.2, List.length_drop]
    omega

/-- Push a sequence of blocks (repeated `ring.push` calls). -/
def Ring.pushAll (r : Ring) (bs : List (List ℚ)) : Ring :=
  bs.foldl Ring.push r

/-- Run a sequence of `take` calls, collecting all returned samples in
order together with the final ring. -/
def Ring.runTakes (r : Ring) : List ℕ → List ℚ × Ring
  | [] => ([], r)
  | n :: ns =>
    ((r.take n).1 ++ ((r.take n).2.runTakes ns).1,
     ((r.take n).2.runTakes ns).2)

theorem Ring.pushAll_flat (bs : List (List ℚ)) :
    ∀ r : Ring, (r.pushAll bs).flat = r.flat ++ bs.flatten := by
  induction bs with
  | nil => intro r; simp [Ring.pushAll]
  | cons b bs ih =>
    intro r
    show ((r.push b).pushAll bs).flat = _
    rw [ih (r.push b), Ring.push_flat]
    simp

theorem Ring.pushAll_wf (bs : List (List ℚ)) :
    ∀ r : Ring, r.wf → (r.pushAll bs).wf := by
  induction bs with
  | nil => intro r h; exact h
  | cons b bs ih => intro r h; exact ih (r.push b) (r.push_wf b h)

theorem Ring.runTakes_spec (ns : List ℕ) :
    ∀ r : Ring, r.wf →
      (r.runTakes ns).1 = r.flat.take ns.sum ∧
      (r.runTakes ns).2.flat = r.flat.drop ns.sum ∧
      (r.runTakes ns).2.wf := by
  induction ns with
  | nil =>
    intro r h
    simp [Ring.runTakes, h]
  | cons n ns ih =>
    intro r h
    have ht := r.take_spec n h
    have hrest := ih (r.take n).2 ht.2.2
    refine ⟨?_, ?_, ?_⟩
    · show (r.take n).1 ++ ((r.take n).2.runTakes ns).1 = _
      rw [ht.1, hrest.1, ht.2.1, List.sum_cons, List.take_add]
    · show ((r.take n).2.runTakes ns).2.flat = _
      rw [hrest.2.1, ht.2.1, List.sum_cons, List.drop_drop, Nat.add_comm]
    · exact hrest.2.2

/-! ### CaptureWorker: chunking loop of offscreen.js -/

/-- One `OFFSCREEN_CHUNK` message payload (the encoded-WAV base64 payload
is determined by `samples` and the sample rate via `encodeWAV`; the raw
samples are kept so properties about payload contents can be stated). -/
structure Chunk where
  seq : ℕ
  samples : List ℚ
  durationMs : ℕ
  mimeType : String
deriving Repr, DecidableEq

/-- Capture-side state of offscreen.js: the ring, the `seq` counter, the
configuration captured by `OFFSCREEN_START`, the `OFFSCREEN_CHUNK`
messages emitted so far, and whether `OFFSCREEN_ENDED` teardown happened. -/
structure Worker where
  ring : Ring
  seq : ℕ
  sampleRate : ℕ
  chunkMs : ℕ
  maxMs : ℕ
  emitted : List Chunk
  ended : Bool
deriving Repr, DecidableEq

/-- Worker state right after `OFFSCREEN_START` configures
`sampleRate`/`chunkMs`/`maxMs` (fresh ring, `seq = 0`). -/
def Worker.init (sr chunkMs maxMs : ℕ) : Worker :=
  ⟨Ring.empty, 0, sr, chunkMs, maxMs, [], false⟩

/-- `Math.floor(sampleRate * (chunkMs / 1000))`. -/
def Worker.samplesPerChunk (w : Worker) : ℕ :=
  w.sampleRate * w.chunkMs / 1000

/-- The `onaudioprocess` callback: copy the input block into the ring. -/
def Worker.pushAudio (w : Worker) (block : List ℚ) : Worker :=
  { w with ring := w.ring.push block }

/-- The `flush` closure: take `samplesPerChunk` samples from the ring and,
only if the result is non-empty, emit an `OFFSCREEN_CHUNK` with
`durationMs: chunkMs` and `seq: ++seq`. -/
def Worker.flush (w : Worker) : Worker :=
  if 0 < (w.ring.take w.samplesPerChunk).1.length then
    { w with
      ring := (w.ring.take w.samplesPerChunk).2,
      seq := w.seq + 1,
      emitted := w.emitted ++
        [⟨w.seq + 1, (w.ring.take w.samplesPerChunk).1, w.chunkMs, "audio/wav"⟩] }
  else { w with ring := (w.ring.take w.samplesPerChunk).2 }

/-- The `OFFSCREEN_STOP` handler: clear the interval, tear down the audio
graph, `ring.clear()`, and send `OFFSCREEN_ENDED`.  It performs no final
flush, so whatever the ring still holds is discarded. -/
def Worker.stop (w : Worker) : Worker :=
  { w with ring := w.ring.clear, ended := true }

/-- Events driving the worker: an `onaudioprocess` block arrival, a tick
of the `setInterval(flush, chunkMs)` timer, and `OFFSCREEN_STOP`.  After
teardown (`ended`) the processor is disconnected and the interval is
cleared, so events are no-ops. -/
inductive WEvent where
  | push (block : List ℚ)
  | tick
  | stop
deriving Repr, DecidableEq

/-- Apply one event. -/
def Worker.applyEvent (w : Worker) : WEvent → Worker
  | .push b => if w.ended then w else w.pushAudio b
  | .tick => if w.ended then w else w.flush
  | .stop => if w.ended then w else w.stop

/-- Run a whole event sequence. -/
def Worker.run (w : Worker) (es : List WEvent) : Worker :=
  es.foldl Worker.applyEvent w

/-- The wall-clock time at which the safety `setTimeout` fires and sends
`OFFSCREEN_ENDED`: `maxMs` after the start that scheduled it. -/
def Worker.safetyEndedAt (w : Worker) (startedAtMs : ℕ) : ℕ :=
  startedAtMs + w.maxMs

theorem takeLoop_zero (chunks : List (List ℚ)) : takeLoop chunks 0 = ([], chunks) := by
  cases chunks <;> simp [takeLoop]

/-- A flush tick that finds the ring empty (`length = 0`) changes nothing:
no message, no `seq` increment, the ring untouched. -/
theorem Worker.flush_empty (w : Worker) (h : w.ring.length = 0) :
    w.flush = w := by
  obtain ⟨⟨chunks, len⟩, sq, sr, cm, mm, em, en⟩ := w
  have h' : len = 0 := h
  subst h'
  simp [Worker.flush, Ring.take, takeLoop_zero, Worker.samplesPerChunk]

/-- `flush`, `pushAudio`, `stop` never touch the configuration fields. -/
theorem Worker.applyEvent_config (w : Worker) (e : WEvent) :
    (w.applyEvent e).sampleRate = w.sampleRate ∧
    (w.applyEvent e).chunkMs = w.chunkMs ∧
    (w.applyEvent e).maxMs = w.maxMs := by
  cases e with
  | push b => simp only [Worker.applyEvent]; split <;> simp [Worker.pushAudio]
  | stop => simp only [Worker.applyEvent]; split <;> simp [Worker.stop]
  | tick =>
    simp only [Worker.applyEvent]
    split
    · simp
    · simp only [Worker.flush]
      split <;> simp

/-- The chunk list only ever grows by appending the chunk numbered
`seq + 1`, so emitted `seq` values stay `1, 2, ..., emitted.length` and
`seq` stays in step with the count. -/
def Worker.seqOk (w : Worker) : Prop :=
  w.emitted.map Chunk.seq = List.range' 1 w.emitted.length ∧
  w.seq = w.emitted.length

theorem Worker.applyEvent_seqOk (w : Worker) (e : WEvent) (h : w.seqOk) :
    (w.applyEvent e).seqOk := by
  cases e with
  | push b =>
    simp only [Worker.applyEvent]
    split
    · exact h
    · exact h
  | stop =>
    simp only [Worker.applyEvent]
    split
    · exact h
    · exact h
  | tick =>
    simp only [Worker.applyEvent]
    split
    · exact h
    · simp only [Worker.flush]
      split
      · refine ⟨?_, ?_⟩
        · simp only [List.map_append, List.length_append, List.map_cons,
            List.map_nil, List.length_cons, List.length_nil]
          rw [h.1, h.2, List.range'_1_concat, Nat.add_comm 1]
        · simp only [List.length_append, List.length_cons, List.length_nil]
          rw [h.2]
      · exact h

theorem Worker.run_seqOk (es : List WEvent) :
    ∀ w : Worker, w.seqOk → (w.run es).seqOk := by
  induction es with
  | nil => intro w h; exact h
  | cons e es ih => intro w h; exact ih (w.applyEvent e) (w.applyEvent_seqOk e h)

/-- Every emitted chunk carries `durationMs = chunkMs`. -/
def Worker.durOk (w : Worker) : Prop :=
  ∀ c ∈ w.emitted, c.durationMs = w.chunkMs

theorem Worker.applyEvent_durOk (w : Worker) (e : WEvent) (h : w.durOk) :
    (w.applyEvent e).durOk := by
  intro c hcm
  rw [(w.applyEvent_config e).2.1]
  cases e with
  | push b =>
    simp only [Worker.applyEvent, Worker.pushAudio] at hcm
    split at hcm
    · exact h c hcm
    · exact h c hcm
  | stop =>
    simp only [Worker.applyEvent, Worker.stop] at hcm
    split at hcm
    · exact h c hcm
    · exact h c hcm
  | tick =>
    simp only [Worker.applyEvent] at hcm
    split at hcm
    · exact h c hcm
    · simp only [Worker.flush] at hcm
      split at hcm
      · simp only [List.mem_append, List.mem_cons, List.not_mem_nil,
          or_false] at hcm
        rcases hcm with hm | hm
        · exact h c hm
        · rw [hm]
      · exact h c hcm

theorem Worker.run_durOk (es : List WEvent) :
    ∀ w : Worker, w.durOk → (w.run es).durOk := by
  induction es with
  | nil => intro w h; exact h
  | cons e es ih => intro w h; exact ih (w.applyEvent e) (w.applyEvent_durOk e h)

theorem Worker.run_chunkMs (es : List WEvent) :
    ∀ w : Worker, (w.run es).chunkMs = w.chunkMs := by
  induction es with
  | nil => intro w; rfl
  | cons e es ih =>
    intro w
    show ((w.applyEvent e).run es).chunkMs = _
    rw [ih (w.applyEvent e), (w.applyEvent_config e).2.1]

/-! ### PlaybackSlot: the `OFFSCREEN_PLAY_TTS` handler of offscreen.js
(the revision that keeps a single reusable `ttsAudio` element; it is the
operative one — it is the only offscreen revision that answers the
coordinator's `OFFSCREEN_READY`/`PING_OFFSCREEN` handshake). -/

/-- The single `ttsAudio` HTML audio element. -/
structure TTSPlayer where
  src : String
  paused : Bool
  currentTime : ℚ
deriving Repr, DecidableEq

/-- Primitive operations the handler performs on the audio element, in
program order. -/
inductive AudioOp where
  | newAudio
  | pauseOp
  | rewind
  | setSrc (src : String)
  | playOp
deriving Repr, DecidableEq

/-- The `data:<mime>;base64,<b64>` URL assigned to `ttsAudio.src`. -/
def dataUrl (mime b64 : String) : String :=
  "data:" ++ mime ++ ";base64," ++ b64

/-- `new Audio()`. -/
def newAudioEl : TTSPlayer := ⟨"", true, 0⟩

/-- `el.pause()`. -/
def TTSPlayer.pauseEl (p : TTSPlayer) : TTSPlayer := { p with paused := true }

/-- `el.currentTime = 0`. -/
def TTSPlayer.rewindEl (p : TTSPlayer) : TTSPlayer := { p with currentTime := 0 }

/-- `el.src = url`. -/
def TTSPlayer.setSrcEl (p : TTSPlayer) (url : String) : TTSPlayer :=
  { p with src := url }

/-- `el.play()`. -/
def TTSPlayer.playEl (p : TTSPlayer) : TTSPlayer := { p with paused := false }

/-- `OFFSCREEN_PLAY_TTS` handler: `if (!ttsAudio) ttsAudio = new Audio()`,
then `ttsAudio.pause(); ttsAudio.currentTime = 0` (stopping any previous
clip), then `ttsAudio.src = data-URL; ttsAudio.play()`.  Returns the new
slot state and the trace of element operations in source order. -/
def handlePlayTTS (slot : Option TTSPlayer) (b64 mime : String) :
    Option TTSPlayer × List AudioOp :=
  (some ((((slot.getD newAudioEl).pauseEl).rewindEl).setSrcEl
      (dataUrl mime b64) |>.playEl),
   (if slot.isSome then ([] : List AudioOp) else [AudioOp.newAudio]) ++
     [AudioOp.pauseOp, AudioOp.rewind, AudioOp.setSrc (dataUrl mime b64),
      AudioOp.playOp])

/-- Number of clips currently audible in the slot. -/
def playingCount (slot : Option TTSPlayer) : ℕ :=
  match slot with
  | none => 0
  | some p => if p.paused then 0 else 1

/-! ### Coordinator: background.js -/

/-- `CONFIG.MUTE_SOURCE_WHILE_PLAYING`. -/
def MUTE_SOURCE_WHILE_PLAYING : Bool := true

/-- `CONFIG.OFFSCREEN_ACK_TIMEOUT` (ms). -/
def OFFSCREEN_ACK_TIMEOUT : ℕ := 3000

/-- `CONFIG.CHUNK_MS`. -/
def CHUNK_MS : ℕ := 5000

/-- `CONFIG.MAX_CAPTURE_MS`. -/
def MAX_CAPTURE_MS : ℕ := 300000

/-- Module-level state of the background service worker, together with the
externally observable mute flag of the session's source tab. -/
structure BgState where
  isRecording : Bool
  startedAt : ℕ
  targetLang : String
  currentTabId : Option ℕ
  tabMuted : Bool
  offscreenReady : Bool
  hasOffscreenDoc : Bool
deriving Repr, DecidableEq

/-- Background state as initialised at the top of background.js. -/
def BgState.init : BgState := ⟨false, 0, "es", none, false, false, false⟩

/-- Outcomes of the environment interactions `startAudioCapture` awaits. -/
structure StartEnv where
  offscreenBecomesReady : Bool
  storedLang : Option String
  streamId : Option String
  sendStartOk : Bool
  ackAtMs : Option ℕ
  now : ℕ
deriving Repr, DecidableEq

/-- `getTargetLanguage()`: the stored value, defaulting to `"es"`. -/
def getTargetLanguage (stored : Option String) : String := stored.getD "es"

/-- `targetLang = lang || (await getTargetLanguage())`. -/
def resolveLang (lang : Option String) (env : StartEnv) : String :=
  match lang with
  | some l => l
  | none => getTargetLanguage env.storedLang

/-- How long `await started` suspends: the `OFFSCREEN_STARTED` listener
resolves it when the acknowledgment arrives, and the
`setTimeout(..., OFFSCREEN_ACK_TIMEOUT)` resolves it regardless, so the
wait is `min` of the two and never exceeds the timeout. -/
def ackWaitMs (env : StartEnv) : ℕ :=
  match env.ackAtMs with
  | some t => min t OFFSCREEN_ACK_TIMEOUT
  | none => OFFSCREEN_ACK_TIMEOUT

/-- The background state while a start is in its Starting window — after
`ensureOffscreen`, the `targetLang`/`currentTabId` assignments and the
`tabs.update(tabId, {muted:true})` call, but before `await started` has
completed.  `isRecording` has not been set yet. -/
def startingState (s : BgState) (tabId : ℕ) (lang : Option String)
    (env : StartEnv) : BgState :=
  { s with
    offscreenReady := true,
    hasOffscreenDoc := true,
    targetLang := resolveLang lang env,
    currentTabId := some tabId,
    tabMuted := MUTE_SOURCE_WHILE_PLAYING }

/-- Result of one `startAudioCapture(tabId, lang)` call: the state when
the call returns or throws, the thrown error if any, and how long the
started-acknowledgment wait suspended. -/
structure StartOutcome where
  state : BgState
  result : Except String Unit
  waitedMs : ℕ

/-- `startAudioCapture` from background.js, step for step: the
`isRecording` guard, `ensureOffscreen`, language/tab/mute assignments,
`getMediaStreamId`, the `OFFSCREEN_START` send, the bounded wait for
`OFFSCREEN_STARTED`, then `isRecording = true; startedAt = Date.now()`. -/
def startAudioCapture (s : BgState) (tabId : ℕ) (lang : Option String)
    (env : StartEnv) : StartOutcome :=
  if s.isRecording then ⟨s, Except.error "Already recording", 0⟩
  else if env.offscreenBecomesReady = false then
    ⟨s, Except.error "Offscreen page did not become ready", 0⟩
  else
    match env.streamId with
    | none =>
      ⟨startingState s tabId lang env,
       Except.error "getMediaStreamId failed", 0⟩
    | some _ =>
      if env.sendStartOk = false then
        ⟨startingState s tabId lang env,
         Except.error "Failed to start offscreen recorder", 0⟩
      else
        ⟨{ startingState s tabId lang env with
             isRecording := true, startedAt := env.now },
         Except.ok (), ackWaitMs env⟩

/-- The `OFFSCREEN_ENDED` handler: clear `isRecording`, forget and unmute
the tab (when one was recorded and muting is enabled), and close the
offscreen document if one exists. -/
def handleEnded (s : BgState) : BgState :=
  { s with
    isRecording := false,
    currentTabId := none,
    tabMuted :=
      if s.currentTabId.isSome && MUTE_SOURCE_WHILE_PLAYING then false
      else s.tabMuted,
    offscreenReady := if s.hasOffscreenDoc then false else s.offscreenReady,
    hasOffscreenDoc := false }

/-! ### Chunk dispatch: the `OFFSCREEN_CHUNK` handler of background.js -/

/-- JSON fields of a successful `/translate-audio` response. -/
structure RespData where
  audio_base64 : Option String
  translated_audio : Option String
  mime_type : Option String
  english_text : Option String
  text : Option String
  translated_text : Option String
  spanish_text : Option String
deriving Repr, DecidableEq

/-- Outcome of the `fetch` for one chunk: a thrown transport error, a
non-2xx status (`noSpeechBody` records whether the body matched the
`/No speech detected/i` log-suppression test), or a parsed success body. -/
inductive BackendResp where
  | transportError (msg : String)
  | httpError (status : ℕ) (noSpeechBody : Bool)
  | success (data : RespData)
deriving Repr, DecidableEq

/-- Transport failures and non-success statuses. -/
def BackendResp.isError : BackendResp → Bool
  | .success _ => false
  | _ => true

/-- What the handler did for one chunk: whether it warned, the
`OFFSCREEN_PLAY_TTS` payload it forwarded (if any), the
`POPUP_UPDATE_TEXT` payload it forwarded (if any), and whether it
re-sent the chunk (the handler never does). -/
structure ChunkOutcome where
  warned : Bool
  play : Option (String × String)
  popupText : Option (Option String × Option String)
  retried : Bool
deriving Repr, DecidableEq

/-- JS `a || b` over possibly-absent strings. -/
def jsOr (a b : Option String) : Option String :=
  match a with
  | some x => some x
  | none => b

/-- The body of the `OFFSCREEN_CHUNK` handler for one backend response:
errors are logged (unless the body is a "No speech detected" rejection)
and the chunk is dropped; a success forwards
`audio_base64 || translated_audio` to playback with
`mime_type || "audio/mp3"` and `english_text || text` /
`translated_text || spanish_text` to the popup.  No branch retries and no
branch touches the session state. -/
def handleChunk : BackendResp → ChunkOutcome
  | .transportError _ => ⟨true, none, none, false⟩
  | .httpError _ noSpeech => ⟨!noSpeech, none, none, false⟩
  | .success d =>
    ⟨false,
     match jsOr d.audio_base64 d.translated_audio with
     | some b => some (b, d.mime_type.getD "audio/mp3")
     | none => none,
     if (jsOr d.english_text d.text).isSome
         || (jsOr d.translated_text d.spanish_text).isSome then
       some (jsOr d.english_text d.text, jsOr d.translated_text d.spanish_text)
     else none,
     false⟩

/-- Processing of a stream of chunk responses in arrival order: each is
handled by `handleChunk`; the handler body never assigns any of the
background session variables, so the state is threaded through
unchanged. -/
def bgConsume (s : BgState) :
    List (ℕ × BackendResp) → BgState × List (ℕ × ChunkOutcome)
  | [] => (s, [])
  | (k, resp) :: rest =>
    ((bgConsume s rest).1, (k, handleChunk resp) :: (bgConsume s rest).2)

/-! ### Encoder lemmas -/

theorem pcm16Bytes_length (s : ℚ) : (pcm16Bytes s).length = 2 := by
  simp [pcm16Bytes, int16Bytes]

theorem pcmData_length (samples : List ℚ) :
    ((samples.map pcm16Bytes).flatten).length = 2 * samples.length := by
  induction samples with
  | nil => simp
  | cons s ss ih =>
    simp only [List.map_cons, List.flatten_cons, List.length_append, ih,
      pcm16Bytes_length, List.length_cons]
    omega

theorem pcmData_drop_take (samples : List ℚ) :
    ∀ i (h : i < samples.length),
      (((samples.map pcm16Bytes).flatten).drop (2 * i)).take 2
        = pcm16Bytes (samples.get ⟨i, h⟩) := by
  induction samples with
  | nil => intro i h; simp at h
  | cons s ss ih =>
    intro i h
    cases i with
    | zero =>
      simp only [List.map_cons, List.flatten_cons, Nat.mul_zero,
        List.drop_zero]
      rw [List.take_append_of_le_length (by rw [pcm16Bytes_length]),
        List.take_of_length_le (by rw [pcm16Bytes_length])]
      rfl
    | succ j =>
      have hj : j < ss.length := by simpa using h
      simp only [List.map_cons, List.flatten_cons]
      rw [show 2 * (j + 1) = (pcm16Bytes s).length + 2 * j by
        rw [pcm16Bytes_length]; omega]
      rw [List.drop_append]
      exact ih j hj

/-! ### Claim C1 -/

/-- **C1 (counterexample).** The claim says each sample is encoded as
`round(clamp(s,-1,1) * (s<0 ? 32768 : 32767))`.  At the sample `1/2` the
rounded value would be `round(16383.5) = 16384` (bytes `[0, 64]`), but the
source's `setInt16` truncates toward zero and stores `16383` (bytes
`[255, 63]`), so the encoded bytes differ from the claimed ones. -/
theorem c1_encode_round_counterexample :
    specSampleInt (1/2) = 16384 ∧
    sampleToInt16 (1/2) = 16383 ∧
    ((encodeWAV [(1 : ℚ)/2] 16000).drop 44).take 2 = [255, 63] ∧
    int16Bytes (specSampleInt (1/2)) = [0, 64] ∧
    ((encodeWAV [(1 : ℚ)/2] 16000).drop 44).take 2
      ≠ int16Bytes (specSampleInt (1/2)) := by
  have hspec : specSampleInt (1/2) = 16384 := by
    norm_num [specSampleInt, clamp, min_def, max_def, round_eq]
  have hcode : sampleToInt16 (1/2) = 16383 := by
    norm_num [sampleToInt16, jsToInt16, sampleScaled, clamp, min_def, max_def]
  have henc : ((encodeWAV [(1 : ℚ)/2] 16000).drop 44).take 2 = [255, 63] := by
    simp only [encodeWAV, riffTag, waveTag, fmtTag, dataTag, u32le, u16le,
      List.map_cons, List.map_nil, List.flatten_cons, List.flatten_nil,
      pcm16Bytes, hcode, int16Bytes]
    norm_num
    omega
  have hbytes : int16Bytes (specSampleInt (1/2)) = [0, 64] := by
    rw [hspec]
    simp only [int16Bytes, List.cons.injEq, and_true]
    omega
  refine ⟨hspec, hcode, henc, hbytes, ?_⟩
  rw [henc, hbytes]
  decide

/-- **C1 (amended).** `encode(samples, sampleRate)` maps each sample `s` to
the signed 16-bit little-endian integer obtained by truncating
`clamp(s,-1,1) * (s<0 ? 32768 : 32767)` toward zero (ECMAScript `ToInt16`,
not rounding); the produced container's byte length equals
`44 + 2*len(samples)`, with the header declaring byte rate =
`sampleRate*2` (bytes 28–31) and block-align = 2 (bytes 32–33). -/
theorem encodeWAV_fields (samples : List ℚ) (sr : ℕ) :
    (encodeWAV samples sr).length = 44 + 2 * samples.length ∧
    ((encodeWAV samples sr).drop 28).take 4 = u32le (sr * 2) ∧
    ((encodeWAV samples sr).drop 32).take 2 = u16le 2 ∧
    ∀ i (h : i < samples.length),
      ((encodeWAV samples sr).drop (44 + 2 * i)).take 2
        = int16Bytes (sampleToInt16 (samples.get ⟨i, h⟩)) := by
  refine ⟨?_, ?_, ?_, ?_⟩
  · simp only [encodeWAV, riffTag, waveTag, fmtTag, dataTag, u32le, u16le,
      List.length_append, List.length_cons, List.length_nil, pcmData_length]
  · simp [encodeWAV, riffTag, waveTag, fmtTag, dataTag, u32le, u16le]
  · simp [encodeWAV, riffTag, waveTag, fmtTag, dataTag, u32le, u16le]
  · intro i h
    have hsplit : encodeWAV samples sr =
        (riffTag ++ u32le (36 + samples.length * 2) ++ waveTag ++ fmtTag ++
          u32le 16 ++ u16le 1 ++ u16le 1 ++ u32le sr ++ u32le (sr * 2) ++
          u16le 2 ++ u16le 16 ++ dataTag ++ u32le (samples.length * 2)) ++
        (samples.map pcm16Bytes).flatten := by
      simp [encodeWAV, List.append_assoc]
    have hlen : (riffTag ++ u32le (36 + samples.length * 2) ++ waveTag ++
        fmtTag ++ u32le 16 ++ u16le 1 ++ u16le 1 ++ u32le sr ++
        u32le (sr * 2) ++ u16le 2 ++ u16le 16 ++ dataTag ++
        u32le (samples.length * 2)).length = 44 := by
      simp [riffTag, waveTag, fmtTag, dataTag, u32le, u16le]
    rw [hsplit, show 44 + 2 * i =
        (riffTag ++ u32le (36 + samples.length * 2) ++ waveTag ++ fmtTag ++
          u32le 16 ++ u16le 1 ++ u16le 1 ++ u32le sr ++ u32le (sr * 2) ++
          u16le 2 ++ u16le 16 ++ dataTag ++
          u32le (samples.length * 2)).length + 2 * i by rw [hlen],
      List.drop_append]
    exact pcmData_drop_take samples i h

/-- **C1 (witness).** The amended theorem instantiated at the one-sample
list `[2]` and sample rate 8000, with the index hypothesis discharged at
`i = 0`. -/
theorem encodeWAV_fields_witness :
    0 < ([(2 : ℚ)] : List ℚ).length ∧
    ((encodeWAV [(2 : ℚ)] 8000).drop (44 + 2 * 0)).take 2
      = int16Bytes (sampleToInt16 (([(2 : ℚ)] : List ℚ).get ⟨0, by decide⟩)) :=
  ⟨by decide, (encodeWAV_fields [(2 : ℚ)] 8000).2.2.2 0 (by decide)⟩

/-! ### Claim C4 -/

/-- **C4.** For any sequence of pushes totaling `N` samples, `take` calls
whose requested sizes sum to at least `N` return exactly the original `N`
samples in FIFO order (splitting blocks at boundaries, never more than
available, never padding), and every subsequent `take` returns empty. -/
theorem ring_fifo_roundtrip (blocks : List (List ℚ)) (ns : List ℕ)
    (h : blocks.flatten.length ≤ ns.sum) :
    ((Ring.empty.pushAll blocks).runTakes ns).1 = blocks.flatten ∧
    ∀ k, ((((Ring.empty.pushAll blocks).runTakes ns).2.take k)).1 = [] := by
  have hwf := Ring.pushAll_wf blocks Ring.empty Ring.empty_wf
  have hflat : (Ring.empty.pushAll blocks).flat = blocks.flatten := by
    rw [Ring.pushAll_flat]
    rfl
  have hs := Ring.runTakes_spec ns _ hwf
  have hfin_flat : ((Ring.empty.pushAll blocks).runTakes ns).2.flat = [] := by
    rw [hs.2.1, hflat, List.drop_eq_nil_of_le h]
  refine ⟨?_, ?_⟩
  · rw [hs.1, hflat, List.take_of_length_le h]
  · intro k
    have ht := Ring.take_spec _ k hs.2.2
    rw [ht.1, hfin_flat, List.take_nil]

/-- **C4 (witness).** Two pushes `[1,2]` and `[3,4,5]` followed by takes
of sizes 3 and 4 (the first take splits the second block) return
`[1,2,3,4,5]`, and a further `take 2` returns empty. -/
theorem ring_fifo_roundtrip_witness :
    (([[(1 : ℚ), 2], [3, 4, 5]] : List (List ℚ)).flatten.length
        ≤ ([3, 4] : List ℕ).sum) ∧
    ((Ring.empty.pushAll [[(1 : ℚ), 2], [3, 4, 5]]).runTakes [3, 4]).1
      = ([[(1 : ℚ), 2], [3, 4, 5]] : List (List ℚ)).flatten ∧
    (((Ring.empty.pushAll [[(1 : ℚ), 2], [3, 4, 5]]).runTakes [3, 4]).2.take 2).1
      = [] :=
  ⟨by decide,
   (ring_fifo_roundtrip [[(1 : ℚ), 2], [3, 4, 5]] [3, 4] (by decide)).1,
   (ring_fifo_roundtrip [[(1 : ℚ), 2], [3, 4, 5]] [3, 4] (by decide)).2 2⟩

/-! ### Claim C2 -/

theorem Worker.applyEvent_tick_live (w : Worker) (h : w.ended = false) :
    w.applyEvent WEvent.tick = w.flush := by
  simp [Worker.applyEvent, h]

theorem Worker.applyEvent_push_live (w : Worker) (b : List ℚ)
    (h : w.ended = false) :
    w.applyEvent (WEvent.push b) = w.pushAudio b := by
  simp [Worker.applyEvent, h]

theorem Worker.applyEvent_stop_live (w : Worker) (h : w.ended = false) :
    w.applyEvent WEvent.stop = w.stop := by
  simp [Worker.applyEvent, h]

theorem Worker.push_on_empty (sq sr cm mm : ℕ) (em : List Chunk) (en : Bool)
    (b : List ℚ) :
    (Worker.mk ⟨[], 0⟩ sq sr cm mm em en).pushAudio b
      = Worker.mk ⟨[b], b.length⟩ sq sr cm mm em en := by
  simp [Worker.pushAudio, Ring.push]

/-- A flush tick on a ring holding one block whose size equals
`samplesPerChunk` emits that block as the next chunk and empties the
ring. -/
theorem Worker.flush_one_block (b : List ℚ) (sq sr cm mm : ℕ)
    (em : List Chunk) (hb : b.length = sr * cm / 1000)
    (hpos : 0 < b.length) :
    (Worker.mk ⟨[b], b.length⟩ sq sr cm mm em false).flush
      = Worker.mk ⟨[], 0⟩ (sq + 1) sr cm mm
          (em ++ [⟨sq + 1, b, cm, "audio/wav"⟩]) false := by
  have hspc : (Worker.mk ⟨[b], b.length⟩ sq sr cm mm em false).samplesPerChunk
      = b.length := by
    simp [Worker.samplesPerChunk, hb]
  have h0 : ¬ (b.length = 0) := by omega
  have htake : (Ring.mk [b] b.length).take b.length
      = (b, (⟨[], 0⟩ : Ring)) := by
    simp [Ring.take, takeLoop, h0, Nat.sub_self]
  simp [Worker.flush, hspc, htake, hpos]

/-- The state reached in the C2 scenario: configuration 16000 Hz / 5000 ms
chunks, a start-up flush tick on the empty ring, two full 80000-sample
stretches each followed by an interval tick, a residual 36800-sample
stretch, then `OFFSCREEN_STOP`. -/
theorem c2Run (c : ℚ) :
    (Worker.init 16000 5000 300000).run
        [WEvent.tick,
         WEvent.push (List.replicate 80000 c),
         WEvent.tick,
         WEvent.push (List.replicate 80000 c),
         WEvent.tick,
         WEvent.push (List.replicate 36800 c),
         WEvent.stop]
      = Worker.mk Ring.empty 2 16000 5000 300000
          [⟨1, List.replicate 80000 c, 5000, "audio/wav"⟩,
           ⟨2, List.replicate 80000 c, 5000, "audio/wav"⟩] true := by
  have hlen : (List.replicate 80000 c).length = 16000 * 5000 / 1000 := by
    rw [List.length_replicate]
  have hpos : 0 < (List.replicate 80000 c).length := by
    rw [List.length_replicate]
    norm_num
  have s1 : (Worker.mk ⟨[], 0⟩ 0 16000 5000 300000 [] false).applyEvent
      WEvent.tick = Worker.mk ⟨[], 0⟩ 0 16000 5000 300000 [] false := by
    rw [Worker.applyEvent_tick_live _ rfl, Worker.flush_empty _ rfl]
  have s2 : (Worker.mk ⟨[], 0⟩ 0 16000 5000 300000 [] false).applyEvent
      (WEvent.push (List.replicate 80000 c))
      = Worker.mk ⟨[List.replicate 80000 c], (List.replicate 80000 c).length⟩
          0 16000 5000 300000 [] false := by
    rw [Worker.applyEvent_push_live _ _ rfl, Worker.push_on_empty]
  have s3 : (Worker.mk ⟨[List.replicate 80000 c],
        (List.replicate 80000 c).length⟩ 0 16000 5000 300000 [] false).applyEvent
      WEvent.tick
      = Worker.mk ⟨[], 0⟩ 1 16000 5000 300000
          [⟨1, List.replicate 80000 c, 5000, "audio/wav"⟩] false := by
    rw [Worker.applyEvent_tick_live _ rfl,
      Worker.flush_one_block _ _ _ _ _ _ hlen hpos]
    rfl
  have s4 : (Worker.mk ⟨[], 0⟩ 1 16000 5000 300000
        [⟨1, List.replicate 80000 c, 5000, "audio/wav"⟩] false).applyEvent
      (WEvent.push (List.replicate 80000 c))
      = Worker.mk ⟨[List.replicate 80000 c], (List.replicate 80000 c).length⟩
          1 16000 5000 300000
          [⟨1, List.replicate 80000 c, 5000, "audio/wav"⟩] false := by
    rw [Worker.applyEvent_push_live _ _ rfl, Worker.push_on_empty]
  have s5 : (Worker.mk ⟨[List.replicate 80000 c],
        (List.replicate 80000 c).length⟩ 1 16000 5000 300000
        [⟨1, List.replicate 80000 c, 5000, "audio/wav"⟩] false).applyEvent
      WEvent.tick
      = Worker.mk ⟨[], 0⟩ 2 16000 5000 300000
          [⟨1, List.replicate 80000 c, 5000, "audio/wav"⟩,
           ⟨2, List.replicate 80000 c, 5000, "audio/wav"⟩] false := by
    rw [Worker.applyEvent_tick_live _ rfl,
      Worker.flush_one_block _ _ _ _ _ _ hlen hpos]
    rfl
  have s6 : (Worker.mk ⟨[], 0⟩ 2 16000 5000 300000
        [⟨1, List.replicate 80000 c, 5000, "audio/wav"⟩,
         ⟨2, List.replicate 80000 c, 5000, "audio/wav"⟩] false).applyEvent
      (WEvent.push (List.replicate 36800 c))
      = Worker.mk ⟨[List.replicate 36800 c], (List.replicate 36800 c).length⟩
          2 16000 5000 300000
          [⟨1, List.replicate 80000 c, 5000, "audio/wav"⟩,
           ⟨2, List.replicate 80000 c, 5000, "audio/wav"⟩] false := by
    rw [Worker.applyEvent_push_live _ _ rfl, Worker.push_on_empty]
  have s7 : (Worker.mk ⟨[List.replicate 36800 c],
        (List.replicate 36800 c).length⟩ 2 16000 5000 300000
        [⟨1, List.replicate 80000 c, 5000, "audio/wav"⟩,
         ⟨2, List.replicate 80000 c, 5000, "audio/wav"⟩] false).applyEvent
      WEvent.stop
      = Worker.mk Ring.empty 2 16000 5000 300000
          [⟨1, List.replicate 80000 c, 5000, "audio/wav"⟩,
           ⟨2, List.replicate 80000 c, 5000, "audio/wav"⟩] true := by
    rw [Worker.applyEvent_stop_live _ rfl]
    rfl
  show List.foldl Worker.applyEvent (Worker.init 16000 5000 300000) _ = _
  rw [show Worker.init 16000 5000 300000
      = Worker.mk ⟨[], 0⟩ 0 16000 5000 300000 [] false from rfl]
  rw [List.foldl_cons, s1, List.foldl_cons, s2, List.foldl_cons, s3,
    List.foldl_cons, s4, List.foldl_cons, s5, List.foldl_cons, s6,
    List.foldl_cons, s7, List.foldl_nil]

/-- **C2 (counterexample).** Feeding 12.3 s of constant-amplitude samples
at 16000 Hz with `chunkDurationMs = 5000` (the immediate start-up flush,
then the interval ticks at 5000 ms and 10000 ms, then `OFFSCREEN_STOP` at
12300 ms): only chunks `seq = 1` and `seq = 2` are emitted.  The stop
handler clears the interval and the ring without a final flush, so the
claimed residual third chunk (`seq = 3`, ~2300 ms) is never emitted — the
residual 36800 samples are discarded. -/
theorem c2_residual_chunk_counterexample :
    ((Worker.init 16000 5000 300000).run
        [WEvent.tick,
         WEvent.push (List.replicate 80000 ((1 : ℚ)/2)),
         WEvent.tick,
         WEvent.push (List.replicate 80000 ((1 : ℚ)/2)),
         WEvent.tick,
         WEvent.push (List.replicate 36800 ((1 : ℚ)/2)),
         WEvent.stop]).emitted.map Chunk.seq = [1, 2] ∧
    ((Worker.init 16000 5000 300000).run
        [WEvent.tick,
         WEvent.push (List.replicate 80000 ((1 : ℚ)/2)),
         WEvent.tick,
         WEvent.push (List.replicate 80000 ((1 : ℚ)/2)),
         WEvent.tick,
         WEvent.push (List.replicate 36800 ((1 : ℚ)/2)),
         WEvent.stop]).emitted.length = 2 := by
  rw [c2Run]
  exact ⟨rfl, rfl⟩

/-- **C2 (amended).** In the 12.3 s / 16000 Hz / 5000 ms scenario the
worker emits exactly two full chunks, `seq = 1` and `seq = 2`, each of
80000 samples with nominal duration 5000 ms; `stop()` emits no residual
chunk and discards the remaining ~2300 ms by clearing the ring. -/
theorem c2_two_full_chunks (c : ℚ) :
    ((Worker.init 16000 5000 300000).run
        [WEvent.tick,
         WEvent.push (List.replicate 80000 c),
         WEvent.tick,
         WEvent.push (List.replicate 80000 c),
         WEvent.tick,
         WEvent.push (List.replicate 36800 c),
         WEvent.stop]).emitted
      = [⟨1, List.replicate 80000 c, 5000, "audio/wav"⟩,
         ⟨2, List.replicate 80000 c, 5000, "audio/wav"⟩] ∧
    ((Worker.init 16000 5000 300000).run
        [WEvent.tick,
         WEvent.push (List.replicate 80000 c),
         WEvent.tick,
         WEvent.push (List.replicate 80000 c),
         WEvent.tick,
         WEvent.push (List.replicate 36800 c),
         WEvent.stop]).ended = true ∧
    ((Worker.init 16000 5000 300000).run
        [WEvent.tick,
         WEvent.push (List.replicate 80000 c),
         WEvent.tick,
         WEvent.push (List.replicate 80000 c),
         WEvent.tick,
         WEvent.push (List.replicate 36800 c),
         WEvent.stop]).ring = Ring.empty := by
  rw [c2Run]
  exact ⟨rfl, rfl, rfl⟩

/-! ### Claims C9 and C10 -/

/-- **C9.** Within one capture session the emitted chunk `seq` values are
the consecutive integers `1, 2, ..., k` with no gaps, for every event
sequence; and a drain tick that finds the ring empty emits no message and
does not consume a sequence number (the flush is a no-op). -/
theorem chunk_seq_consecutive :
    (∀ (sr cm mm : ℕ) (es : List WEvent),
      ((Worker.init sr cm mm).run es).emitted.map Chunk.seq
        = List.range' 1 ((Worker.init sr cm mm).run es).emitted.length) ∧
    (∀ w : Worker, w.ring.length = 0 → w.flush = w) := by
  constructor
  · intro sr cm mm es
    exact (Worker.run_seqOk es (Worker.init sr cm mm) ⟨rfl, rfl⟩).1
  · intro w h
    exact Worker.flush_empty w h

/-- **C9 (witness).** A flush on a concrete worker whose ring is empty is
the identity: no chunk message, `seq` stays 3. -/
theorem chunk_seq_consecutive_witness :
    ((Worker.mk ⟨[], 0⟩ 3 8000 1000 60000 [] false).ring.length = 0) ∧
    (Worker.mk ⟨[], 0⟩ 3 8000 1000 60000 [] false).flush
      = Worker.mk ⟨[], 0⟩ 3 8000 1000 60000 [] false :=
  ⟨rfl, chunk_seq_consecutive.2 (Worker.mk ⟨[], 0⟩ 3 8000 1000 60000 [] false) rfl⟩

/-- **C10.** Every chunk message a session emits declares
`durationMs = chunkMs`, the configured chunk duration, regardless of how
many samples were actually drained into it. -/
theorem chunk_duration_nominal (sr cm mm : ℕ) (es : List WEvent) :
    ∀ c ∈ ((Worker.init sr cm mm).run es).emitted, c.durationMs = cm := by
  intro c hc
  have h0 : (Worker.init sr cm mm).durOk := by
    intro c hc
    simp [Worker.init] at hc
  have h := Worker.run_durOk es (Worker.init sr cm mm) h0 c hc
  rwa [Worker.run_chunkMs] at h

/-- **C10 (witness).** A tick that drains only 3 buffered samples (far
less than the 80000-sample nominal chunk) still emits the chunk with
`durationMs = 5000`. -/
theorem chunk_duration_nominal_witness :
    ((⟨1, [(1 : ℚ), 1, 1], 5000, "audio/wav"⟩ : Chunk) ∈
      ((Worker.init 16000 5000 300000).run
        [WEvent.push [(1 : ℚ), 1, 1], WEvent.tick]).emitted) ∧
    (⟨1, [(1 : ℚ), 1, 1], 5000, "audio/wav"⟩ : Chunk).durationMs = 5000 :=
  ⟨by decide,
   chunk_duration_nominal 16000 5000 300000
     [WEvent.push [(1 : ℚ), 1, 1], WEvent.tick] _ (by decide)⟩

/-! ### Claim C3 -/

/-- **C3.** Every `OFFSCREEN_PLAY_TTS` stops and rewinds the single
`ttsAudio` slot occupant before loading the new payload and playing it:
the pause/rewind operations precede the `src` assignment and the `play()`
call in the handler's trace, afterwards the slot's sole occupant is the
new clip, and at most one clip is playing at any instant. -/
theorem play_tts_single_slot (slot : Option TTSPlayer) (b64 mime : String) :
    (handlePlayTTS slot b64 mime).1 = some ⟨dataUrl mime b64, false, 0⟩ ∧
    playingCount (handlePlayTTS slot b64 mime).1 ≤ 1 ∧
    ∃ pre, (handlePlayTTS slot b64 mime).2
        = pre ++ [AudioOp.pauseOp, AudioOp.rewind,
            AudioOp.setSrc (dataUrl mime b64), AudioOp.playOp] ∧
      AudioOp.playOp ∉ pre ∧ ∀ u, AudioOp.setSrc u ∉ pre := by
  have h1 : (handlePlayTTS slot b64 mime).1
      = some ⟨dataUrl mime b64, false, 0⟩ := by
    cases slot <;> rfl
  refine ⟨h1, ?_, ?_⟩
  · rw [h1]
    simp [playingCount]
  · refine ⟨if slot.isSome then ([] : List AudioOp) else [AudioOp.newAudio],
      rfl, ?_, ?_⟩
    · cases slot <;> simp
    · intro u
      cases slot <;> simp

/-! ### Claim C5 -/

/-- **C5 (counterexample).** The claim also covers a start issued while a
session is *Starting*.  But `isRecording` is only set after the
started-acknowledgment wait completes, so in the Starting window (here:
the state right after the first start's mute step) the guard sees
`isRecording = false` and a concurrent second start is *not* rejected —
it proceeds and returns ok instead of failing with the
Already-recording error. -/
theorem c5_start_during_starting_counterexample :
    ((startingState BgState.init 7 none
        ⟨true, none, some "sid", true, none, 42⟩).isRecording = false) ∧
    (startAudioCapture
        (startingState BgState.init 7 none
          ⟨true, none, some "sid", true, none, 42⟩) 7 none
        ⟨true, none, some "sid", true, none, 42⟩).result = Except.ok () :=
  ⟨rfl, rfl⟩

/-- **C5 (amended).** A start request issued while a session is Recording
(`isRecording = true`) fails with the Already-recording error and leaves
the entire background state — recording flag, target language, current
tab, mute state — unchanged, with no side effects; during the Starting
window, however, the guard is not yet set and a concurrent start is not
rejected. -/
theorem start_while_recording_no_side_effects (s : BgState) (tabId : ℕ)
    (lang : Option String) (env : StartEnv) (h : s.isRecording = true) :
    startAudioCapture s tabId lang env
      = ⟨s, Except.error "Already recording", 0⟩ := by
  simp [startAudioCapture, h]

/-- **C5 (witness).** The amended theorem at a concrete recording state. -/
theorem start_while_recording_witness :
    ((⟨true, 5, "es", some 1, true, true, true⟩ : BgState).isRecording
      = true) ∧
    startAudioCapture (⟨true, 5, "es", some 1, true, true, true⟩ : BgState)
        2 none ⟨true, none, some "id", true, none, 9⟩
      = ⟨⟨true, 5, "es", some 1, true, true, true⟩,
         Except.error "Already recording", 0⟩ :=
  ⟨rfl,
   start_while_recording_no_side_effects
     (⟨true, 5, "es", some 1, true, true, true⟩ : BgState) 2 none
     ⟨true, none, some "id", true, none, 9⟩ rfl⟩

/-! ### Claim C6 -/

theorem bgConsume_state (s : BgState) :
    ∀ l : List (ℕ × BackendResp), (bgConsume s l).1 = s := by
  intro l
  induction l with
  | nil => rfl
  | cons p rest ih =>
    obtain ⟨k, resp⟩ := p
    simpa [bgConsume] using ih

theorem bgConsume_append (s : BgState) (l1 l2 : List (ℕ × BackendResp)) :
    (bgConsume s (l1 ++ l2)).2 = (bgConsume s l1).2 ++ (bgConsume s l2).2 := by
  induction l1 with
  | nil => rfl
  | cons p rest ih =>
    obtain ⟨k, resp⟩ := p
    simp [bgConsume, ih]

/-- **C6.** A backend error (transport failure or non-success status) for
the chunk at position `k` is logged and the chunk is dropped — no
playback, no retry; the background session state is untouched and the
handling of every other chunk in the stream (before or after) is exactly
what it would be on its own, so the next chunk's dispatch and response
application are unaffected. -/
theorem backend_error_isolated (s : BgState) (xs ys : List (ℕ × BackendResp))
    (k : ℕ) (e : BackendResp) (he : e.isError = true) :
    (handleChunk e).play = none ∧
    (handleChunk e).retried = false ∧
    (bgConsume s (xs ++ (k, e) :: ys)).1 = s ∧
    (bgConsume s (xs ++ (k, e) :: ys)).2
      = (bgConsume s xs).2 ++ (k, handleChunk e) :: (bgConsume s ys).2 := by
  refine ⟨?_, ?_, bgConsume_state s _, ?_⟩
  · cases e with
    | transportError m => rfl
    | httpError st b => rfl
    | success d => simp [BackendResp.isError] at he
  · cases e with
    | transportError m => rfl
    | httpError st b => rfl
    | success d => simp [BackendResp.isError] at he
  · rw [bgConsume_append]
    rfl

/-- **C6 (witness).** An HTTP-500 error for the chunk at `seq = 1`
followed by a successful chunk at `seq = 2`: the error chunk produces no
playback and no retry, the state is unchanged, and chunk 2's outcome is
what it is on its own. -/
theorem backend_error_isolated_witness :
    ((BackendResp.httpError 500 false).isError = true) ∧
    ((handleChunk (BackendResp.httpError 500 false)).play = none ∧
     (handleChunk (BackendResp.httpError 500 false)).retried = false ∧
     (bgConsume BgState.init ([] ++ (1, BackendResp.httpError 500 false) ::
        [(2, BackendResp.success ⟨some "AUDIO", none, none, some "hi",
          none, some "hola", none⟩)])).1 = BgState.init ∧
     (bgConsume BgState.init ([] ++ (1, BackendResp.httpError 500 false) ::
        [(2, BackendResp.success ⟨some "AUDIO", none, none, some "hi",
          none, some "hola", none⟩)])).2
       = (bgConsume BgState.init []).2 ++
         (1, handleChunk (BackendResp.httpError 500 false)) ::
         (bgConsume BgState.init [(2, BackendResp.success ⟨some "AUDIO",
            none, none, some "hi", none, some "hola", none⟩)]).2) :=
  ⟨rfl,
   backend_error_isolated BgState.init []
     [(2, BackendResp.success ⟨some "AUDIO", none, none, some "hi", none,
        some "hola", none⟩)]
     1 (BackendResp.httpError 500 false) rfl⟩

/-! ### Claim C7 -/

theorem ackWaitMs_le (env : StartEnv) :
    ackWaitMs env ≤ OFFSCREEN_ACK_TIMEOUT := by
  unfold ackWaitMs
  cases env.ackAtMs with
  | none => exact le_refl _
  | some t => exact min_le_right _ _

/-- **C7.** Once a start reaches the Starting window (readiness handshake
passed, stream handle obtained, start instruction sent), the call always
completes successfully with the session marked Recording: the
started-acknowledgment wait is resolved either by the acknowledgment or by
the grace-period timer, so it never exceeds `OFFSCREEN_ACK_TIMEOUT` and
the session can never stall in Starting. -/
theorem starting_reaches_recording (s : BgState) (tabId : ℕ)
    (lang : Option String) (env : StartEnv)
    (hrec : s.isRecording = false)
    (hready : env.offscreenBecomesReady = true)
    (hsid : env.streamId.isSome = true)
    (hsend : env.sendStartOk = true) :
    (startAudioCapture s tabId lang env).result = Except.ok () ∧
    (startAudioCapture s tabId lang env).state.isRecording = true ∧
    (startAudioCapture s tabId lang env).waitedMs ≤ OFFSCREEN_ACK_TIMEOUT := by
  obtain ⟨sid, hs⟩ := Option.isSome_iff_exists.mp hsid
  refine ⟨?_, ?_, ?_⟩
  · simp [startAudioCapture, hrec, hready, hs, hsend]
  · simp [startAudioCapture, hrec, hready, hs, hsend, startingState]
  · simp only [startAudioCapture, hrec, hready, hs, hsend]
    simp
    exact ackWaitMs_le env

/-- **C7 (witness).** A start whose acknowledgment never arrives
(`ackAtMs = none`) still ends Recording, after exactly the 3000 ms grace
period. -/
theorem starting_reaches_recording_witness :
    (BgState.init.isRecording = false) ∧
    ((⟨true, none, some "sid", true, none, 5⟩ : StartEnv).offscreenBecomesReady
      = true) ∧
    ((⟨true, none, some "sid", true, none, 5⟩ : StartEnv).streamId.isSome
      = true) ∧
    ((⟨true, none, some "sid", true, none, 5⟩ : StartEnv).sendStartOk
      = true) ∧
    ((startAudioCapture BgState.init 7 none
        ⟨true, none, some "sid", true, none, 5⟩).result = Except.ok () ∧
     (startAudioCapture BgState.init 7 none
        ⟨true, none, some "sid", true, none, 5⟩).state.isRecording = true ∧
     (startAudioCapture BgState.init 7 none
        ⟨true, none, some "sid", true, none, 5⟩).waitedMs
       ≤ OFFSCREEN_ACK_TIMEOUT) :=
  ⟨rfl, rfl, rfl, rfl,
   starting_reaches_recording BgState.init 7 none
     ⟨true, none, some "sid", true, none, 5⟩ rfl rfl rfl rfl⟩

/-! ### Claim C8 -/

/-- **C8.** With `maxDurationMs = 10000` and no stop request, the worker's
safety timer fires `OFFSCREEN_ENDED` exactly 10000 ms after start, and the
background `OFFSCREEN_ENDED` handler then ends the session: the recording
flag is cleared, the session's tab is forgotten, and its mute state is
reverted (the tab is unmuted). -/
theorem max_duration_safety_stop (w : Worker) (s : BgState) (startT tid : ℕ)
    (hmax : w.maxMs = 10000)
    (hrec : s.isRecording = true)
    (htab : s.currentTabId = some tid)
    (hmut : s.tabMuted = true) :
    w.safetyEndedAt startT = startT + 10000 ∧
    (handleEnded s).isRecording = false ∧
    (handleEnded s).tabMuted = false ∧
    (handleEnded s).currentTabId = none := by
  refine ⟨?_, rfl, ?_, rfl⟩
  · rw [Worker.safetyEndedAt, hmax]
  · simp [handleEnded, htab, MUTE_SOURCE_WHILE_PLAYING]

/-- **C8 (witness).** A concrete recording session (muted tab 3, worker
configured with `maxMs = 10000`): the safety stop fires at 10000 ms and
the ended handler unmutes and ends it. -/
theorem max_duration_safety_stop_witness :
    ((Worker.mk Ring.empty 0 16000 5000 10000 [] false).maxMs = 10000) ∧
    ((⟨true, 0, "es", some 3, true, true, true⟩ : BgState).isRecording
      = true) ∧
    ((⟨true, 0, "es", some 3, true, true, true⟩ : BgState).currentTabId
      = some 3) ∧
    ((⟨true, 0, "es", some 3, true, true, true⟩ : BgState).tabMuted
      = true) ∧
    ((Worker.mk Ring.empty 0 16000 5000 10000 [] false).safetyEndedAt 0
        = 0 + 10000 ∧
     (handleEnded (⟨true, 0, "es", some 3, true, true, true⟩ : BgState)).isRecording
        = false ∧
     (handleEnded (⟨true, 0, "es", some 3, true, true, true⟩ : BgState)).tabMuted
        = false ∧
     (handleEnded (⟨true, 0, "es", some 3, true, true, true⟩ : BgState)).currentTabId
        = none) :=
  ⟨rfl, rfl, rfl, rfl,
   max_duration_safety_stop (Worker.mk Ring.empty 0 16000 5000 10000 [] false)
     (⟨true, 0, "es", some 3, true, true, true⟩ : BgState) 0 3
     rfl rfl rfl rfl⟩

end AvatarTalk
